import Mathlib

/-!
Verification of the cothority Calypso/DKG/coin specification against a
shallow embedding of the Go sources.

The embedding follows the source files:
  - dkg/pedersen protocol (Setup, NewSetup, Dispatch)
  - calypso service (CreateLTS, ReshareLTS, DecryptKey, GetLTSReply,
    verifyReencryption)
  - the coin contract (modelled from the spec where the contract source is
    absent and only its tests are available)

Go maps keyed by string(bytes) are embedded as functions from byte lists to
Option values; kyber points and scalars are embedded as abstract types with
decidable equality (and, for the ElGamal reasoning, an additive commutative
group with integer scalars). Channel receives and network calls are embedded
as oracle inputs: the deterministic control flow around them is translated
line by line from the source.
-/

/-- Update of a Go map embedded as a function into Option. -/
def mapUpdate {α β : Type} [DecidableEq α] (m : α → Option β) (k : α) (v : β) :
    α → Option β :=
  fun x => if x = k then some v else m x

/-! ## DKG pedersen Setup protocol (dkg/pedersen/pedersen.go) -/

/-- The single error message from kyber vss that Setup.Dispatch tolerates
during response collection. -/
def vssDupResponse : String := "vss: already existing response from same origin"

/-- The threshold set in NewSetup:
Threshold = uint32(len(roster.List) - (len(roster.List)-1)/3). -/
def setupThreshold (n : Nat) : Nat := n - (n - 1) / 3

/-- The threshold computed in Service.DecryptKey before share recovery:
threshold = nodes - (nodes-1)/3. -/
def decryptThreshold (n : Nat) : Nat := n - (n - 1) / 3

/-- The response-collection loop of Setup.Dispatch.  `outcome i` is the
result of `allResponse` on the i-th channel receive (`none` on success,
`some e` when DKG.ProcessResponse returned error e).  The first component
counts how many responses were received from the channel, the second is the
error with which the loop aborts the run, if any.  Translated from
`for i := 0; i < l*(l-1); i++ { err := o.allResponse(<-o.structResponse);
if err != nil && err.Error() != vssDupResponse { return err } }`. -/
def responseLoopFrom (outcome : Nat → Option String) :
    Nat → Nat → Nat × Option String
  | _, 0 => (0, none)
  | i, Nat.succ k =>
    match outcome i with
    | some e =>
      if e = vssDupResponse then
        let r := responseLoopFrom outcome (i + 1) k
        (r.1 + 1, r.2)
      else (1, some e)
    | none =>
      let r := responseLoopFrom outcome (i + 1) k
      (r.1 + 1, r.2)

/-- The whole response phase of Setup.Dispatch: l*(l-1) iterations where
l = len(o.publics), the number of participants. -/
def dispatchResponses (l : Nat) (outcome : Nat → Option String) :
    Nat × Option String :=
  responseLoopFrom outcome 0 (l * (l - 1))

/-! ## Calypso data model (calypso/service.go, dkg/pedersen/struct.go)

Type parameters: `P` embeds kyber.Point, `S` embeds kyber.Scalar, `I` embeds
a roster entry (onet server identity). -/

/-- SharedSecret from dkg/pedersen: the minimal set of values needed for
shared encryption and decryption (Index, private share V, joint public key
X, polynomial commitments). -/
structure SharedSecret (P S : Type) where
  Index : Nat
  V : S
  X : P
  Commits : List P
deriving DecidableEq

/-- DistKeyShare from kyber share/dkg/pedersen: polynomial commitments plus
the private share of this node. -/
structure DistKeyShare (P S : Type) where
  Commits : List P
  ShareI : Nat
  ShareV : S
deriving DecidableEq

/-- pubPoly: serializable version of share.PubPoly stored by the service. -/
structure pubPoly (P : Type) where
  B : P
  Commits : List P
deriving DecidableEq

/-- CreateLTSReply: ByzCoinID, InstanceID and the aggregate public key X. -/
structure CreateLTSReply (P : Type) where
  ByzCoinID : List Nat
  InstanceID : List Nat
  X : P
deriving DecidableEq

/-- storage1: the per-node store of the calypso service.  Every Go map
keyed by string(instID) becomes a function from the byte key. -/
structure storage1 (P S I : Type) where
  Shared : List Nat → Option (SharedSecret P S)
  Polys : List Nat → Option (pubPoly P)
  Rosters : List Nat → Option (List I)
  Replies : List Nat → Option (CreateLTSReply P)
  DKS : List Nat → Option (DistKeyShare P S)
  LongtermPair : List Nat → Option (P × S)

/-- Outcome of the select over setupDKG.Finished and time.After in
CreateLTS/ReshareLTS: either the Finished channel fired and
setupDKG.SharedSecret() produced a result or an error, or the propagation
timeout fired first. -/
inductive DkgOutcome (P S : Type) where
  | finished (res : Except String (SharedSecret P S × DistKeyShare P S))
  | timeout

/-- dkgTimeout: how long the system waits for the DKG to finish, in
nanoseconds (Go: 10 * time.Second). -/
def propagationTimeout : Nat := 10 * 1000000000

/-- The deterministic part of Service.CreateLTS after the roster and
instance ID have been extracted from the proof: start the DKG and commit
its result under key reply.Hash().  `hashReply` embeds CreateLTSReply.Hash.
Returns the new storage and the reply or error. -/
def createLTS {P S I : Type} [DecidableEq P] [DecidableEq S]
    (st : storage1 P S I) (byzCoinID instID : List Nat) (roster : List I)
    (base : P) (hashReply : CreateLTSReply P → List Nat)
    (outcome : DkgOutcome P S) :
    storage1 P S I × Except String (CreateLTSReply P) :=
  match outcome with
  | .timeout => (st, .error "new-dkg didn\x27t finish in time")
  | .finished (.error e) => (st, .error e)
  | .finished (.ok (shared, dks)) =>
    let reply : CreateLTSReply P := ⟨byzCoinID, instID, shared.X⟩
    let k := hashReply reply
    ({ st with
        Shared := mapUpdate st.Shared k shared
        Polys := mapUpdate st.Polys k ⟨base, dks.Commits⟩
        Rosters := mapUpdate st.Rosters k roster
        Replies := mapUpdate st.Replies k reply
        DKS := mapUpdate st.DKS k dks },
     .ok reply)

/-- The deterministic part of Service.ReshareLTS after the roster and
instance ID have been extracted from the proof: check an LTS exists, run
the resharing DKG, and commit the new record only when the reshared secret
differs and the public point is unchanged.  Translated line by line from
service.go (the nil-checks on Shared and DKS, then the select, then the V
and X checks guarding the four map updates). -/
def reshareLTS {P S I : Type} [DecidableEq P] [DecidableEq S]
    (st : storage1 P S I) (instID : List Nat) (roster : List I) (base : P)
    (outcome : DkgOutcome P S) :
    storage1 P S I × Except String Unit :=
  if st.Shared instID = none ∨ st.DKS instID = none then
    (st, .error "cannot start resharing without an LTS")
  else
    match outcome with
    | .timeout => (st, .error "resharing-dkg didn\x27t finish in time")
    | .finished (.error e) => (st, .error e)
    | .finished (.ok (shared, dks)) =>
      match st.Shared instID with
      | none => (st, .error "cannot start resharing without an LTS")
      | some old =>
        if shared.V = old.V then
          (st, .error "the reshared secret is the same")
        else if ¬ shared.X = old.X then
          (st, .error "the reshared public point is different")
        else
          ({ st with
              Shared := mapUpdate st.Shared instID shared
              Polys := mapUpdate st.Polys instID ⟨base, dks.Commits⟩
              Rosters := mapUpdate st.Rosters instID roster
              DKS := mapUpdate st.DKS instID dks },
           .ok ())

/-! ## DecryptKey (calypso/service.go) -/

/-- Read instance: points to a Write instance and carries the reader
public key Xc. -/
structure Read (P : Type) where
  Write : List Nat
  Xc : P
deriving DecidableEq

/-- Write instance: the LTS identifier, the ElGamal randomness commitment
U and the encrypted symmetric-key chunks Cs. -/
structure Write (P : Type) where
  LTSID : List Nat
  U : P
  Cs : List P
deriving DecidableEq

/-- DecryptKeyReply: joint public key X, key chunks Cs and the re-encrypted
point XhatEnc. -/
structure DecryptKeyReply (P : Type) where
  Cs : List P
  XhatEnc : P
  X : P
deriving DecidableEq

/-- Oracle inputs of Service.DecryptKey: results of proof
verification/decoding, of protocol creation and start, the value received
from the Reencrypted channel, and share.RecoverCommit as a function of
(threshold, nodes). -/
structure DecryptEnv (P : Type) where
  readDecode : Except String (Read P)
  writeDecode : Except String (Write P)
  writeProofKey : List Nat
  readVerify : Option String
  writeVerify : Option String
  createProtoErr : Option String
  vdataEncodeErr : Option String
  startErr : Option String
  reencrypted : Bool
  recover : Nat → Nat → Except String P

/-- Service.DecryptKey, translated line by line.  The Bool records whether
ocsProto.Start() was reached, i.e. whether the re-encryption protocol was
started.  The two storage lookups that Go dereferences without a nil check
(Replies, Shared, Polys) are embedded as errors marking the panic. -/
def decryptKey {P S I : Type} [DecidableEq P]
    (st : storage1 P S I) (env : DecryptEnv P) :
    Bool × Except String (DecryptKeyReply P) :=
  match env.readDecode with
  | .error e => (false, .error ("didn\x27t get a read instance: " ++ e))
  | .ok read =>
  match env.writeDecode with
  | .error e => (false, .error ("didn\x27t get a write instance: " ++ e))
  | .ok write =>
  if ¬ read.Write = env.writeProofKey then
    (false, .error "read doesn\x27t point to passed write")
  else
  match st.Rosters write.LTSID with
  | none => (false, .error "don\x27t know the LTSID stored in write")
  | some roster =>
  match st.Replies write.LTSID with
  | none => (false, .error "panic: nil reply for LTSID")
  | some _reply =>
  match env.readVerify with
  | some e =>
    (false, .error ("read proof cannot be verified to come from scID: " ++ e))
  | none =>
  match env.writeVerify with
  | some e =>
    (false, .error ("write proof cannot be verified to come from scID: " ++ e))
  | none =>
  let nodes := roster.length
  let threshold := decryptThreshold nodes
  match env.createProtoErr with
  | some e => (false, .error e)
  | none =>
  match env.vdataEncodeErr with
  | some e => (false, .error ("couldn\x27t marshal verification data: " ++ e))
  | none =>
  match st.Shared write.LTSID with
  | none => (false, .error "panic: nil shared for LTSID")
  | some shared =>
  match st.Polys write.LTSID with
  | none => (false, .error "panic: nil poly for LTSID")
  | some _pp =>
  match env.startErr with
  | some e => (true, .error e)
  | none =>
  if ¬ env.reencrypted then (true, .error "reencryption got refused")
  else
  match env.recover threshold nodes with
  | .error e => (true, .error e)
  | .ok xhatEnc => (true, .ok ⟨write.Cs, xhatEnc, shared.X⟩)

/-! ## verifyReencryption (calypso/service.go) -/

/-- ContractReadID references a read contract system-wide. -/
def ContractReadID : String := "calypsoRead"

/-- vData as seen by verifyReencryption: the result of Proof.KeyValue()
(key bytes, value bytes, contract ID) and the optional ephemeral key. -/
structure vData (P : Type) where
  ProofKV : Except String (List Nat × List Nat × String)
  Ephemeral : Option P

/-- The Reencrypt message handed to the verification callback. -/
structure Reencrypt (P : Type) where
  Xc : P
  VerificationData : List Nat

/-- Service.verifyReencryption, translated line by line.  `decodeVData`
embeds protobuf decoding of the verification data and `decodeRead` embeds
protobuf decoding of a Read instance from the proof value bytes. -/
def verifyReencryption {P : Type} [DecidableEq P]
    (decodeVData : List Nat → Option (vData P))
    (decodeRead : List Nat → Option (Read P))
    (rc : Reencrypt P) : Bool :=
  match decodeVData rc.VerificationData with
  | none => false
  | some vd =>
    match vd.ProofKV with
    | .error _ => false
    | .ok (_, v0, contractID) =>
      if ¬ contractID = ContractReadID then false
      else
        match decodeRead v0 with
        | none => false
        | some r =>
          if vd.Ephemeral.isSome then false
          else if ¬ r.Xc = rc.Xc then false
          else true

/-! ## GetLTSReply (calypso/service.go)

Go returns a reply whose fields are built with append([]byte..., ...) and
X.Clone(): fresh allocations.  To state the aliasing property we embed a
heap of values as a list; a reference is an index into it.  Stored replies
hold references; GetLTSReply allocates fresh cells copying the stored
contents. -/

/-- Allocate a fresh cell holding v; returns the new heap and the
reference to the cell. -/
def heapAlloc {V : Type} (h : List V) (v : V) : List V × Nat :=
  (h ++ [v], h.length)

/-- Read a reference, with a default for dangling references. -/
def heapRead {V : Type} [Inhabited V] (h : List V) (r : Nat) : V :=
  h.getD r default

/-- Mutate the cell behind a reference. -/
def heapWrite {V : Type} (h : List V) (r : Nat) (v : V) : List V :=
  h.set r v

/-- A stored CreateLTSReply with its three fields held by reference
(ByzCoinID and InstanceID are byte slices, X is a heap-allocated point). -/
structure ReplyRefs where
  ByzCoinID : Nat
  InstanceID : Nat
  X : Nat
deriving DecidableEq

/-- Clone one field: append([]byte..., stored...) / stored.Clone() — read
the stored cell and allocate a fresh cell with a copy of its contents. -/
def cloneField {V : Type} [Inhabited V] (h : List V) (r : Nat) : List V × Nat :=
  heapAlloc h (heapRead h r)

/-- Service.GetLTSReply: look up the stored reply for the LTSID; if absent
return the not-found error, otherwise return a reply whose three fields are
fresh copies of the stored cells. -/
def getLTSReply {V : Type} [Inhabited V] (h : List V)
    (replies : List Nat → Option ReplyRefs) (ltsID : List Nat) :
    List V × Except String ReplyRefs :=
  match replies ltsID with
  | none => (h, .error "didn\x27t find this Long Term Secret")
  | some rep =>
    let p1 := cloneField h rep.ByzCoinID
    let p2 := cloneField p1.1 rep.InstanceID
    let p3 := cloneField p2.1 rep.X
    (p3.1, .ok ⟨p1.2, p2.2, p3.2⟩)

/-! ## ElGamal encode / re-encrypt / decode

Modelled from the spec: NewWrite (EncodeKey), the OCS re-encryption
protocol and DecodeKey live in calypso/struct.go and calypso/protocol,
which are not under src/.  Following section 4.4 of the spec, the write
instance holds an ElGamal-style ciphertext (U = r•G, C_i = r•X + embed k_i)
of the symmetric-key chunks toward the LTS key X, the share holders
cooperatively produce XhatEnc = x•(U + Xc) (the Lagrange reconstruction of
the partial shares x_i•(U + Xc)), and the reader holding xc with
Xc = xc•G recovers each chunk as data(C_i − (XhatEnc − xc•X)).  Points are
an additive commutative group with integer scalars, `embed` maps a chunk
into the group and `data` extracts it again. -/

/-- Modelled from the spec: NewWrite — encrypt the symmetric-key chunks to
the LTS public key X with randomness r, producing U and Cs. -/
def newWrite {P K : Type} [AddCommGroup P] (G X : P) (r : ℤ)
    (embed : K → P) (chunks : List K) : P × List P :=
  (r • G, chunks.map (fun k => r • X + embed k))

/-- Modelled from the spec: the value reconstructed by the re-encryption
protocol from at least threshold partial shares — x•(U + Xc) where x is the
shared secret. -/
def reencryptXhatEnc {P : Type} [AddCommGroup P] (x : ℤ) (U Xc : P) : P :=
  x • (U + Xc)

/-- Modelled from the spec: DecodeKey — the reader removes its own layer
(Xhat = XhatEnc − xc•X) and extracts each chunk from C_i − Xhat. -/
def decodeKey {P K : Type} [AddCommGroup P]
    (X : P) (Cs : List P) (XhatEnc : P) (xc : ℤ)
    (data : P → Option K) : List (Option K) :=
  let Xhat := XhatEnc - xc • X
  Cs.map (fun C => data (C - Xhat))

/-! ## Coin contract (byzcoin/contracts/coins.go)

Modelled from the spec: the coin contract source is not under src/ — only
its tests are.  Spec section 4.2: coin values use checked unsigned 64-bit
arithmetic; minting/transfer that would overflow fails with an overflow
error rather than wrapping.  The tests fix the shape of the outputs: a
successful mint is one Update state change, a successful transfer is two
Update state changes (destination first, then source), and failures emit
zero state changes and zero output coins. -/

/-- Largest value a coin can hold (unsigned 64-bit). -/
def uint64Max : Nat := 2 ^ 64 - 1

/-- ContractCoinID denotes a contract that can mint and transfer coins. -/
def ContractCoinID : String := "coin"

/-- A coin: a name and an unsigned 64-bit value. -/
structure Coin where
  Name : List Nat
  Value : Nat
deriving DecidableEq

/-- State-change kinds emitted by contracts. -/
inductive StateChangeKind where
  | create
  | update
  | remove
deriving DecidableEq

/-- A state change (the coin value is kept structured instead of
protobuf-encoded). -/
structure StateChange where
  Kind : StateChangeKind
  InstanceID : List Nat
  ContractID : String
  Coin : Coin
  DarcID : List Nat
deriving DecidableEq

/-- Modelled from the spec: invoke:mint on a coin instance — add the
minted amount to the stored value, failing with an overflow error and no
state change when the sum does not fit in 64 bits.  Result is
(state changes, output coins, error) as in the Go contract signature. -/
def coinMint (current : Coin) (instID darcID : List Nat) (amount : Nat) :
    List StateChange × List Coin × Option String :=
  if current.Value + amount ≤ uint64Max then
    ([⟨.update, instID, ContractCoinID, ⟨current.Name, current.Value + amount⟩,
       darcID⟩], [], none)
  else ([], [], some "mint would overflow")

/-- Modelled from the spec: invoke:transfer of `amount` from the coin
instance `src` to the coin instance `dst` — fails when the destination is
not a coin, when the source balance is insufficient, or when the
destination would overflow; otherwise emits two Update state changes,
destination first. -/
def coinTransfer (src dst : Coin) (srcID dstID darcID : List Nat)
    (dstContract : String) (amount : Nat) :
    List StateChange × List Coin × Option String :=
  if ¬ dstContract = ContractCoinID then
    ([], [], some "destination is not a coin contract")
  else if amount > src.Value then
    ([], [], some "not enough coins in source")
  else if ¬ dst.Value + amount ≤ uint64Max then
    ([], [], some "transfer would overflow the destination")
  else
    ([⟨.update, dstID, ContractCoinID, ⟨dst.Name, dst.Value + amount⟩, darcID⟩,
      ⟨.update, srcID, ContractCoinID, ⟨src.Name, src.Value - amount⟩, darcID⟩],
     [], none)

/-! ## Theorems -/

/-- Claim C3: for every roster of n ≥ 1 nodes, the threshold used by the
DKG Setup protocol and by DecryptKey is n − (n−1)/3 with floor division,
and this value equals the Byzantine-safe threshold ⌈(2n+1)/3⌉ (written in
Nat as (2n+1+2)/3, and characterised by 2n+1 ≤ 3t < 2n+4). -/
theorem dkg_threshold_byzantine (n : Nat) (h : 1 ≤ n) :
    setupThreshold n = decryptThreshold n
    ∧ decryptThreshold n = (2 * n + 1 + 2) / 3
    ∧ 2 * n + 1 ≤ 3 * decryptThreshold n
    ∧ 3 * (decryptThreshold n - 1) < 2 * n + 1 := by
  unfold setupThreshold decryptThreshold
  omega

/-- Witness for C3 at n = 7: the threshold is 5. -/
theorem dkg_threshold_byzantine_witness :
    1 ≤ 7
    ∧ (setupThreshold 7 = decryptThreshold 7
       ∧ decryptThreshold 7 = (2 * 7 + 1 + 2) / 3
       ∧ 2 * 7 + 1 ≤ 3 * decryptThreshold 7
       ∧ 3 * (decryptThreshold 7 - 1) < 2 * 7 + 1) :=
  ⟨by decide, dkg_threshold_byzantine 7 (by decide)⟩

/-- Claim C7: minting an amount that would push the coin value past
2^64 − 1 fails with an error containing "overflow", emits zero state
changes and zero output coins, and therefore leaves the stored value
unchanged (no wrap). -/
theorem coinMint_overflow_spec (c : Coin) (instID darcID : List Nat)
    (a : Nat) (h : c.Value + a > uint64Max) :
    coinMint c instID darcID a = ([], [], some "mint would overflow")
    ∧ ∃ pre post, "mint would overflow" = pre ++ "overflow" ++ post := by
  refine ⟨?_, "mint would ", "", rfl⟩
  unfold coinMint
  rw [if_neg (by omega)]

/-- Witness for C7: minting 1 on a coin holding 2^64 − 1 overflows. -/
theorem coinMint_overflow_spec_witness :
    (⟨[], uint64Max⟩ : Coin).Value + 1 > uint64Max
    ∧ (coinMint ⟨[], uint64Max⟩ [1] [2] 1 = ([], [], some "mint would overflow")
       ∧ ∃ pre post, "mint would overflow" = pre ++ "overflow" ++ post) :=
  ⟨by decide, coinMint_overflow_spec ⟨[], uint64Max⟩ [1] [2] 1 (by decide)⟩

/-- Claim C8 (amended): a transfer of a > b fails with an error and no
state change; a transfer of a ≤ b to a coin destination succeeds — provided
the destination balance plus a still fits in 64 bits — and produces exactly
two Update state changes, destination first with its balance increased by
a, then the source with balance b − a. -/
theorem coinTransfer_spec (src dst : Coin) (srcID dstID darcID : List Nat)
    (a : Nat) :
    (a > src.Value →
      coinTransfer src dst srcID dstID darcID ContractCoinID a
        = ([], [], some "not enough coins in source"))
    ∧ (a ≤ src.Value → dst.Value + a ≤ uint64Max →
      coinTransfer src dst srcID dstID darcID ContractCoinID a
        = ([⟨.update, dstID, ContractCoinID, ⟨dst.Name, dst.Value + a⟩, darcID⟩,
            ⟨.update, srcID, ContractCoinID, ⟨src.Name, src.Value - a⟩, darcID⟩],
           [], none)) := by
  constructor
  · intro hgt
    unfold coinTransfer
    rw [if_neg (by simp), if_pos hgt]
  · intro hle hnov
    unfold coinTransfer
    rw [if_neg (by simp), if_neg (by omega), if_neg (by omega)]

/-- Witness for C8: transferring 100 from balance 1000 to a zero-balance
account yields balances 900 and 100; transferring 10000 from balance 100
fails with no state change. -/
theorem coinTransfer_spec_witness :
    (100 ≤ 1000 ∧ (0 : Nat) + 100 ≤ uint64Max ∧ 10000 > 100)
    ∧ coinTransfer ⟨[7], 1000⟩ ⟨[8], 0⟩ [1] [2] [3] ContractCoinID 100
        = ([⟨.update, [2], ContractCoinID, ⟨[8], 100⟩, [3]⟩,
            ⟨.update, [1], ContractCoinID, ⟨[7], 900⟩, [3]⟩], [], none)
    ∧ coinTransfer ⟨[8], 100⟩ ⟨[7], 900⟩ [2] [1] [3] ContractCoinID 10000
        = ([], [], some "not enough coins in source") :=
  ⟨⟨by decide, by decide, by decide⟩,
   (coinTransfer_spec ⟨[7], 1000⟩ ⟨[8], 0⟩ [1] [2] [3] 100).2
     (by decide) (by decide),
   (coinTransfer_spec ⟨[8], 100⟩ ⟨[7], 900⟩ [2] [1] [3] 10000).1 (by decide)⟩

/-- Counterexample to claim C8 as stated: with a source balance of 1 and a
destination already holding 2^64 − 1, the transfer of a = 1 ≤ b = 1 does
NOT succeed — it fails with an overflow error and emits no state change,
so "if a ≤ b the transfer succeeds" is false. -/
theorem coinTransfer_claim_counterexample :
    1 ≤ (⟨[7], 1⟩ : Coin).Value
    ∧ coinTransfer ⟨[7], 1⟩ ⟨[8], uint64Max⟩ [1] [2] [3] ContractCoinID 1
        = ([], [], some "transfer would overflow the destination") := by
  constructor
  · decide
  · decide

/-- If every outcome in the window is benign (no error or the duplicate
response error), the response loop receives all k responses and succeeds. -/
theorem responseLoopFrom_benign (outcome : Nat → Option String) :
    ∀ (k i : Nat),
    (∀ t, t < k → outcome (i + t) = none ∨ outcome (i + t) = some vssDupResponse) →
    responseLoopFrom outcome i k = (k, none) := by
  intro k
  induction k with
  | zero => intro i _; rfl
  | succ k ih =>
    intro i h
    have hrest : ∀ t, t < k →
        outcome (i + 1 + t) = none ∨ outcome (i + 1 + t) = some vssDupResponse := by
      intro t ht
      have := h (t + 1) (by omega)
      simpa [Nat.add_comm, Nat.add_left_comm] using this
    have h0 := h 0 (by omega)
    simp only [Nat.add_zero] at h0
    rcases h0 with h0 | h0
    · simp [responseLoopFrom, h0, ih (i + 1) hrest]
    · simp [responseLoopFrom, h0, ih (i + 1) hrest]

/-- If the first non-benign outcome in the window sits at offset j, the
response loop receives exactly j+1 responses and aborts with that error. -/
theorem responseLoopFrom_abort (outcome : Nat → Option String) :
    ∀ (j k i : Nat) (e : String), j < k →
    outcome (i + j) = some e → ¬ e = vssDupResponse →
    (∀ t, t < j → outcome (i + t) = none ∨ outcome (i + t) = some vssDupResponse) →
    responseLoopFrom outcome i k = (j + 1, some e) := by
  intro j
  induction j with
  | zero =>
    intro k i e hjk he hne _
    cases k with
    | zero => omega
    | succ k =>
      simp only [Nat.add_zero] at he
      simp [responseLoopFrom, he, hne]
  | succ j ih =>
    intro k i e hjk he hne hbenign
    cases k with
    | zero => omega
    | succ k =>
      have hrest : ∀ t, t < j →
          outcome (i + 1 + t) = none ∨ outcome (i + 1 + t) = some vssDupResponse := by
        intro t ht
        have := hbenign (t + 1) (by omega)
        simpa [Nat.add_comm, Nat.add_left_comm] using this
      have he1 : outcome (i + 1 + j) = some e := by
        simpa [Nat.add_comm, Nat.add_left_comm] using he
      have h0 := hbenign 0 (by omega)
      simp only [Nat.add_zero] at h0
      have htail := ih k (i + 1) e (by omega) he1 hne hrest
      rcases h0 with h0 | h0
      · simp [responseLoopFrom, h0, htail]
      · simp [responseLoopFrom, h0, htail]

/-- Claim C2: the response phase of Setup.Dispatch receives n·(n−1)
responses (n participants) and tolerates exactly the duplicate-response
error from the vss layer; the run succeeds when every response outcome is
benign, and the first outcome with any other error message aborts the run
with that error after j+1 receives. -/
theorem dispatch_responses_spec (n : Nat) (outcome : Nat → Option String) :
    ((∀ i, i < n * (n - 1) →
        outcome i = none ∨ outcome i = some vssDupResponse) →
      dispatchResponses n outcome = (n * (n - 1), none))
    ∧ (∀ j e, j < n * (n - 1) → outcome j = some e → ¬ e = vssDupResponse →
        (∀ t, t < j → outcome t = none ∨ outcome t = some vssDupResponse) →
        dispatchResponses n outcome = (j + 1, some e)) := by
  constructor
  · intro h
    unfold dispatchResponses
    apply responseLoopFrom_benign
    intro t ht
    simpa using h t (by omega)
  · intro j e hj he hne hb
    unfold dispatchResponses
    apply responseLoopFrom_abort outcome j (n * (n - 1)) 0 e hj (by simpa using he) hne
    intro t ht
    simpa using hb t ht

/-- Witness for C2 with n = 3 (6 expected responses): a run whose third
outcome is the duplicate-response error still succeeds after 6 receives,
and a run whose second outcome is a different error aborts with it after 2
receives. -/
theorem dispatch_responses_spec_witness :
    dispatchResponses 3 (fun i => if i = 2 then some vssDupResponse else none)
      = (3 * (3 - 1), none)
    ∧ dispatchResponses 3 (fun i => if i = 1 then some "boom" else none)
      = (1 + 1, some "boom") :=
  ⟨(dispatch_responses_spec 3
      (fun i => if i = 2 then some vssDupResponse else none)).1 (by decide),
   (dispatch_responses_spec 3
      (fun i => if i = 1 then some "boom" else none)).2 1 "boom"
     (by decide) (by decide) (by decide) (by decide)⟩

/-- Claim C1: when the resharing DKG completes with (shared, dks), the
service commits the new LTS record (Shared, Polys, Rosters, DKS) only when
the reshared public key X equals the stored X and the reshared private
share V differs from the stored V; a run with the same V fails with "the
reshared secret is the same", a run with a different V but different X
fails with "the reshared public point is different", and in both error
cases the storage is returned unchanged. -/
theorem reshareLTS_commit_spec {P S I : Type} [DecidableEq P] [DecidableEq S]
    (st : storage1 P S I) (instID : List Nat) (roster : List I) (base : P)
    (shared old : SharedSecret P S) (dks : DistKeyShare P S)
    (hS : st.Shared instID = some old) (hD : (st.DKS instID).isSome) :
    (shared.V = old.V →
      reshareLTS st instID roster base (.finished (.ok (shared, dks)))
        = (st, .error "the reshared secret is the same"))
    ∧ (¬ shared.V = old.V → ¬ shared.X = old.X →
      reshareLTS st instID roster base (.finished (.ok (shared, dks)))
        = (st, .error "the reshared public point is different"))
    ∧ (¬ shared.V = old.V → shared.X = old.X →
      (reshareLTS st instID roster base (.finished (.ok (shared, dks)))).2
        = .ok ()
      ∧ (reshareLTS st instID roster base (.finished (.ok (shared, dks)))).1.Shared
          instID = some shared
      ∧ (reshareLTS st instID roster base (.finished (.ok (shared, dks)))).1.Polys
          instID = some ⟨base, dks.Commits⟩
      ∧ (reshareLTS st instID roster base (.finished (.ok (shared, dks)))).1.Rosters
          instID = some roster
      ∧ (reshareLTS st instID roster base (.finished (.ok (shared, dks)))).1.DKS
          instID = some dks) := by
  have hpre : ¬ (st.Shared instID = none ∨ st.DKS instID = none) := by
    rw [hS]
    rcases Option.isSome_iff_exists.mp hD with ⟨d, hd⟩
    rw [hd]
    simp
  refine ⟨?_, ?_, ?_⟩
  · intro hV
    unfold reshareLTS
    rw [if_neg hpre]
    simp [hS, hV]
  · intro hV hX
    unfold reshareLTS
    rw [if_neg hpre]
    simp [hS, hV, hX]
  · intro hV hX
    unfold reshareLTS
    rw [if_neg hpre]
    simp [hS, hV, hX, mapUpdate]

/-- Concrete storage for the C1 witness: one LTS stored under key [0]. -/
def reshareWitnessStore : storage1 Nat Nat Nat :=
  ⟨fun k => if k = [0] then some ⟨0, 5, 7, []⟩ else none,
   fun _ => none,
   fun _ => none,
   fun _ => none,
   fun k => if k = [0] then some ⟨[], 0, 5⟩ else none,
   fun _ => none⟩

/-- Witness for C1: a resharing that keeps X = 7 and changes V from 5 to 6
commits the new record. -/
theorem reshareLTS_commit_spec_witness :
    reshareWitnessStore.Shared [0] = some ⟨0, 5, 7, []⟩
    ∧ (reshareWitnessStore.DKS [0]).isSome
    ∧ ((reshareLTS reshareWitnessStore [0] [1, 2] 9
          (.finished (.ok (⟨1, 6, 7, []⟩, ⟨[3], 1, 6⟩)))).2 = .ok ()
       ∧ (reshareLTS reshareWitnessStore [0] [1, 2] 9
          (.finished (.ok (⟨1, 6, 7, []⟩, ⟨[3], 1, 6⟩)))).1.Shared [0]
            = some ⟨1, 6, 7, []⟩
       ∧ (reshareLTS reshareWitnessStore [0] [1, 2] 9
          (.finished (.ok (⟨1, 6, 7, []⟩, ⟨[3], 1, 6⟩)))).1.Polys [0]
            = some ⟨9, [3]⟩
       ∧ (reshareLTS reshareWitnessStore [0] [1, 2] 9
          (.finished (.ok (⟨1, 6, 7, []⟩, ⟨[3], 1, 6⟩)))).1.Rosters [0]
            = some [1, 2]
       ∧ (reshareLTS reshareWitnessStore [0] [1, 2] 9
          (.finished (.ok (⟨1, 6, 7, []⟩, ⟨[3], 1, 6⟩)))).1.DKS [0]
            = some ⟨[3], 1, 6⟩) :=
  ⟨rfl, rfl,
   (reshareLTS_commit_spec reshareWitnessStore [0] [1, 2] 9
      ⟨1, 6, 7, []⟩ ⟨0, 5, 7, []⟩ ⟨[3], 1, 6⟩ rfl rfl).2.2 (by decide) rfl⟩

/-- Claim C4: whenever the decoded Read instance does not point to the
instance key of the passed Write proof, DecryptKey fails with the error
saying the read does not point to the passed write, without starting the
re-encryption protocol (the Bool is false), whatever the protocol oracles
would have answered, so no decryption reply is produced. -/
theorem decryptKey_mismatch_spec {P S I : Type} [DecidableEq P]
    (st : storage1 P S I) (env : DecryptEnv P) (read : Read P)
    (write : Write P)
    (hr : env.readDecode = .ok read) (hw : env.writeDecode = .ok write)
    (hne : ¬ read.Write = env.writeProofKey) :
    decryptKey st env
      = (false, .error "read doesn\x27t point to passed write") := by
  unfold decryptKey
  rw [hr, hw]
  simp [hne]

/-- Empty storage for the C4 and C9 witnesses. -/
def emptyStore : storage1 Nat Nat Nat :=
  ⟨fun _ => none, fun _ => none, fun _ => none, fun _ => none,
   fun _ => none, fun _ => none⟩

/-- Environment for the C4 witness: the read points to write [9] but the
passed write proof has key [4]; all later oracles would have succeeded. -/
def mismatchEnv : DecryptEnv Nat :=
  ⟨.ok ⟨[9], 3⟩, .ok ⟨[0], 5, [21]⟩, [4], none, none, none, none, none, true,
   fun _ _ => .ok 16⟩

/-- Witness for C4: a mismatched read/write pair makes DecryptKey fail
without starting the protocol. -/
theorem decryptKey_mismatch_spec_witness :
    mismatchEnv.readDecode = .ok ⟨[9], 3⟩
    ∧ mismatchEnv.writeDecode = .ok ⟨[0], 5, [21]⟩
    ∧ ¬ ([9] : List Nat) = mismatchEnv.writeProofKey
    ∧ decryptKey emptyStore mismatchEnv
        = (false, .error "read doesn\x27t point to passed write") :=
  ⟨rfl, rfl, by decide,
   decryptKey_mismatch_spec emptyStore mismatchEnv ⟨[9], 3⟩ ⟨[0], 5, [21]⟩
     rfl rfl (by decide)⟩

/-- Claim C9: a CreateLTS or ReshareLTS run whose DKG does not signal
Finished before the propagation timeout returns the corresponding timeout
error to the caller with the LTS storage unchanged (and the function
returns — there is no retry); the propagation timeout is 10 seconds
(10 * 10^9 ns). -/
theorem dkg_timeout_spec {P S I : Type} [DecidableEq P] [DecidableEq S]
    (st : storage1 P S I) (byzCoinID instID : List Nat) (roster : List I)
    (base : P) (hashReply : CreateLTSReply P → List Nat)
    (hS : (st.Shared instID).isSome) (hD : (st.DKS instID).isSome) :
    createLTS st byzCoinID instID roster base hashReply .timeout
      = (st, .error "new-dkg didn\x27t finish in time")
    ∧ reshareLTS st instID roster base .timeout
      = (st, .error "resharing-dkg didn\x27t finish in time")
    ∧ propagationTimeout = 10 * 1000000000 := by
  refine ⟨rfl, ?_, rfl⟩
  unfold reshareLTS
  rw [if_neg]
  rcases Option.isSome_iff_exists.mp hS with ⟨s, hs⟩
  rcases Option.isSome_iff_exists.mp hD with ⟨d, hd⟩
  rw [hs, hd]
  simp

/-- Witness for C9, on the stored LTS of the C1 witness store. -/
theorem dkg_timeout_spec_witness :
    (reshareWitnessStore.Shared [0]).isSome
    ∧ (reshareWitnessStore.DKS [0]).isSome
    ∧ (createLTS reshareWitnessStore [5] [0] [1, 2] 9 (fun _ => [7]) .timeout
        = (reshareWitnessStore, .error "new-dkg didn\x27t finish in time")
       ∧ reshareLTS reshareWitnessStore [0] [1, 2] 9 .timeout
        = (reshareWitnessStore, .error "resharing-dkg didn\x27t finish in time")
       ∧ propagationTimeout = 10 * 1000000000) :=
  ⟨rfl, rfl,
   dkg_timeout_spec reshareWitnessStore [5] [0] [1, 2] 9 (fun _ => [7])
     rfl rfl⟩


/-- Claim C6: the per-node verification predicate verifyReencryption
returns true exactly when the verification data decodes, its proof returns
key/value with the read-contract ID, the decoded value is a Read instance,
no ephemeral key is carried, and the decoded reader key Xc equals the
request Xc; in every other case the node refuses (returns false). -/
theorem verifyReencryption_spec {P : Type} [DecidableEq P]
    (decodeVData : List Nat → Option (vData P))
    (decodeRead : List Nat → Option (Read P)) (rc : Reencrypt P) :
    verifyReencryption decodeVData decodeRead rc = true
    ↔ ∃ vd, decodeVData rc.VerificationData = some vd
        ∧ ∃ key v0, vd.ProofKV = .ok (key, v0, ContractReadID)
          ∧ ∃ r, decodeRead v0 = some r
            ∧ vd.Ephemeral = none ∧ r.Xc = rc.Xc := by
  constructor
  · intro h
    unfold verifyReencryption at h
    split at h
    · exact absurd h (by simp)
    next vd hvd =>
      refine ⟨vd, hvd, ?_⟩
      split at h
      · exact absurd h (by simp)
      next key v0 cid hkv =>
        split at h
        · exact absurd h (by simp)
        next hcid =>
          have hcid2 : cid = ContractReadID := by
            by_contra hc
            exact hcid hc
          subst hcid2
          refine ⟨key, v0, hkv, ?_⟩
          split at h
          · exact absurd h (by simp)
          next r hrd =>
            refine ⟨r, hrd, ?_⟩
            split at h
            · exact absurd h (by simp)
            next heph =>
              split at h
              · exact absurd h (by simp)
              next hxc =>
                exact ⟨Option.not_isSome_iff_eq_none.mp (by simpa using heph),
                       by by_contra hc; exact hxc hc⟩
  · rintro ⟨vd, hvd, key, v0, hkv, r, hrd, heph, hxc⟩
    simp [verifyReencryption, hvd, hkv, hrd, heph, hxc]

/-- Witness for C6: with decoders that succeed on the concrete bytes and a
matching reader key, the predicate accepts; flipping only the reader key
makes it refuse. -/
theorem verifyReencryption_spec_witness :
    verifyReencryption (P := Nat)
      (fun b => if b = [1] then some ⟨.ok ([2], [3], ContractReadID), none⟩
                else none)
      (fun b => if b = [3] then some ⟨[4], 5⟩ else none)
      ⟨5, [1]⟩ = true
    ∧ verifyReencryption (P := Nat)
      (fun b => if b = [1] then some ⟨.ok ([2], [3], ContractReadID), none⟩
                else none)
      (fun b => if b = [3] then some ⟨[4], 5⟩ else none)
      ⟨6, [1]⟩ = false :=
  ⟨(verifyReencryption_spec
      (fun b => if b = [1] then some ⟨.ok ([2], [3], ContractReadID), none⟩
                else none)
      (fun b => if b = [3] then some ⟨[4], 5⟩ else none)
      ⟨5, [1]⟩).mpr
     ⟨⟨.ok ([2], [3], ContractReadID), none⟩, rfl, [2], [3], rfl,
      ⟨[4], 5⟩, rfl, rfl, rfl⟩,
   by decide⟩

/-- Reading below the length of the left part of an append stays in the
left part. -/
theorem getD_append_left {V : Type} (h t : List V) (i : Nat) (d : V)
    (hi : i < h.length) : (h ++ t).getD i d = h.getD i d := by
  induction h generalizing i with
  | nil => simp at hi
  | cons a h ih =>
    cases i with
    | zero => simp [List.getD]
    | succ i =>
      simp only [List.cons_append, List.getD_cons_succ]
      exact ih i (by simpa using hi)

/-- Reading at offset j past the left part of an append reads the right
part. -/
theorem getD_append_nth {V : Type} (h rest : List V) (j : Nat) (d : V) :
    (h ++ rest).getD (h.length + j) d = rest.getD j d := by
  induction h with
  | nil => simp
  | cons a h ih =>
    simpa [List.getD_cons_succ, Nat.succ_add] using ih

/-- Setting one cell leaves every other cell unchanged. -/
theorem getD_set_ne {V : Type} (l : List V) (i j : Nat) (v d : V)
    (hij : ¬ i = j) : (l.set i v).getD j d = l.getD j d := by
  induction l generalizing i j with
  | nil => simp
  | cons a l ih =>
    cases i with
    | zero =>
      cases j with
      | zero => exact absurd rfl hij
      | succ j => simp [List.getD_cons_succ]
    | succ i =>
      cases j with
      | zero => simp
      | succ j =>
        simp only [List.set_cons_succ, List.getD_cons_succ]
        exact ih i j (by omega)

/-- Claim C10: GetLTSReply answers a stored LTSID with a reply whose three
fields are fresh heap cells copying the stored values — so writing through
any fresh reference never alters the stored record — and answers every
unknown LTSID with the not-found error. -/
theorem getLTSReply_spec {V : Type} [Inhabited V] (h : List V)
    (replies : List Nat → Option ReplyRefs) (ltsID : List Nat) :
    (replies ltsID = none →
      getLTSReply h replies ltsID
        = (h, .error "didn\x27t find this Long Term Secret"))
    ∧ (∀ rep, replies ltsID = some rep →
        rep.ByzCoinID < h.length → rep.InstanceID < h.length →
        rep.X < h.length →
        ∃ h3 out, getLTSReply h replies ltsID = (h3, .ok out)
          ∧ h.length ≤ out.ByzCoinID ∧ h.length ≤ out.InstanceID
          ∧ h.length ≤ out.X
          ∧ heapRead h3 out.ByzCoinID = heapRead h rep.ByzCoinID
          ∧ heapRead h3 out.InstanceID = heapRead h rep.InstanceID
          ∧ heapRead h3 out.X = heapRead h rep.X
          ∧ (∀ r v, h.length ≤ r →
              heapRead (heapWrite h3 r v) rep.ByzCoinID
                = heapRead h rep.ByzCoinID
              ∧ heapRead (heapWrite h3 r v) rep.InstanceID
                = heapRead h rep.InstanceID
              ∧ heapRead (heapWrite h3 r v) rep.X = heapRead h rep.X)) := by
  constructor
  · intro hnone
    unfold getLTSReply
    rw [hnone]
  · intro rep hsome hb hi hx
    refine ⟨(h ++ [heapRead h rep.ByzCoinID])
              ++ [heapRead (h ++ [heapRead h rep.ByzCoinID]) rep.InstanceID]
              ++ [heapRead ((h ++ [heapRead h rep.ByzCoinID])
                    ++ [heapRead (h ++ [heapRead h rep.ByzCoinID]) rep.InstanceID])
                    rep.X],
            ⟨h.length, (h ++ [heapRead h rep.ByzCoinID]).length,
             ((h ++ [heapRead h rep.ByzCoinID])
               ++ [heapRead (h ++ [heapRead h rep.ByzCoinID]) rep.InstanceID]).length⟩,
            ?_, ?_, ?_, ?_, ?_, ?_, ?_, ?_⟩
    · unfold getLTSReply
      rw [hsome]
      rfl
    · exact Nat.le_refl _
    · show h.length ≤ (h ++ [heapRead h rep.ByzCoinID]).length
      simp
    · show h.length ≤ ((h ++ [heapRead h rep.ByzCoinID])
        ++ [heapRead (h ++ [heapRead h rep.ByzCoinID]) rep.InstanceID]).length
      simp
    · show List.getD _ h.length default = List.getD h rep.ByzCoinID default
      rw [List.append_assoc, List.append_assoc]
      have := getD_append_nth h
        ([heapRead h rep.ByzCoinID]
          ++ ([heapRead (h ++ [heapRead h rep.ByzCoinID]) rep.InstanceID]
              ++ [heapRead ((h ++ [heapRead h rep.ByzCoinID])
                    ++ [heapRead (h ++ [heapRead h rep.ByzCoinID]) rep.InstanceID])
                    rep.X])) 0 (default : V)
      rw [Nat.add_zero] at this
      rw [this]
      rfl
    · show List.getD _ (h ++ [heapRead h rep.ByzCoinID]).length default
        = List.getD h rep.InstanceID default
      have hlen : (h ++ [heapRead h rep.ByzCoinID]).length = h.length + 1 := by
        simp
      rw [List.append_assoc, List.append_assoc, hlen]
      have := getD_append_nth h
        ([heapRead h rep.ByzCoinID]
          ++ ([heapRead (h ++ [heapRead h rep.ByzCoinID]) rep.InstanceID]
              ++ [heapRead ((h ++ [heapRead h rep.ByzCoinID])
                    ++ [heapRead (h ++ [heapRead h rep.ByzCoinID]) rep.InstanceID])
                    rep.X])) 1 (default : V)
      rw [this]
      show heapRead (h ++ [heapRead h rep.ByzCoinID]) rep.InstanceID
        = List.getD h rep.InstanceID default
      exact getD_append_left h _ rep.InstanceID default hi
    · show List.getD _ ((h ++ [heapRead h rep.ByzCoinID])
          ++ [heapRead (h ++ [heapRead h rep.ByzCoinID]) rep.InstanceID]).length
          default
        = List.getD h rep.X default
      have hlen : ((h ++ [heapRead h rep.ByzCoinID])
          ++ [heapRead (h ++ [heapRead h rep.ByzCoinID]) rep.InstanceID]).length
          = h.length + 2 := by
        simp
      rw [List.append_assoc, List.append_assoc, hlen]
      have := getD_append_nth h
        ([heapRead h rep.ByzCoinID]
          ++ ([heapRead (h ++ [heapRead h rep.ByzCoinID]) rep.InstanceID]
              ++ [heapRead ((h ++ [heapRead h rep.ByzCoinID])
                    ++ [heapRead (h ++ [heapRead h rep.ByzCoinID]) rep.InstanceID])
                    rep.X])) 2 (default : V)
      rw [this]
      show heapRead ((h ++ [heapRead h rep.ByzCoinID])
          ++ [heapRead (h ++ [heapRead h rep.ByzCoinID]) rep.InstanceID]) rep.X
        = List.getD h rep.X default
      rw [List.append_assoc]
      exact getD_append_left h _ rep.X default hx
    · intro r v hr
      have hlen3 : ((h ++ [heapRead h rep.ByzCoinID])
          ++ [heapRead (h ++ [heapRead h rep.ByzCoinID]) rep.InstanceID]
          ++ [heapRead ((h ++ [heapRead h rep.ByzCoinID])
                ++ [heapRead (h ++ [heapRead h rep.ByzCoinID]) rep.InstanceID])
                rep.X]) = h ++ ([heapRead h rep.ByzCoinID]
          ++ ([heapRead (h ++ [heapRead h rep.ByzCoinID]) rep.InstanceID]
              ++ [heapRead ((h ++ [heapRead h rep.ByzCoinID])
                    ++ [heapRead (h ++ [heapRead h rep.ByzCoinID]) rep.InstanceID])
                    rep.X])) := by
        rw [List.append_assoc, List.append_assoc]
      refine ⟨?_, ?_, ?_⟩
      · show List.getD (List.set _ r v) rep.ByzCoinID default
          = List.getD h rep.ByzCoinID default
        rw [getD_set_ne _ r rep.ByzCoinID v default (by omega), hlen3]
        exact getD_append_left h _ rep.ByzCoinID default hb
      · show List.getD (List.set _ r v) rep.InstanceID default
          = List.getD h rep.InstanceID default
        rw [getD_set_ne _ r rep.InstanceID v default (by omega), hlen3]
        exact getD_append_left h _ rep.InstanceID default hi
      · show List.getD (List.set _ r v) rep.X default
          = List.getD h rep.X default
        rw [getD_set_ne _ r rep.X v default (by omega), hlen3]
        exact getD_append_left h _ rep.X default hx

/-- Reply table for the C10 witness: LTSID [0] maps to the stored cells
0, 1, 2 of the heap. -/
def witnessReplies : List Nat → Option ReplyRefs :=
  fun k => if k = [0] then some ⟨0, 1, 2⟩ else none

/-- Witness for C10 on the heap [10, 20, 30]: the unknown LTSID [9] gets
the not-found error, and LTSID [0] gets a reply made of fresh cells. -/
theorem getLTSReply_spec_witness :
    getLTSReply [10, 20, 30] witnessReplies [9]
      = ([10, 20, 30], .error "didn\x27t find this Long Term Secret")
    ∧ ∃ h3 out, getLTSReply [10, 20, 30] witnessReplies [0] = (h3, .ok out)
        ∧ 3 ≤ out.ByzCoinID ∧ 3 ≤ out.InstanceID ∧ 3 ≤ out.X
        ∧ heapRead h3 out.ByzCoinID = heapRead [10, 20, 30] 0
        ∧ heapRead h3 out.InstanceID = heapRead [10, 20, 30] 1
        ∧ heapRead h3 out.X = heapRead [10, 20, 30] 2
        ∧ (∀ r v, 3 ≤ r →
            heapRead (heapWrite h3 r v) 0 = heapRead [10, 20, 30] 0
            ∧ heapRead (heapWrite h3 r v) 1 = heapRead [10, 20, 30] 1
            ∧ heapRead (heapWrite h3 r v) 2 = heapRead [10, 20, 30] 2) :=
  ⟨(getLTSReply_spec [10, 20, 30] witnessReplies [9]).1 rfl,
   (getLTSReply_spec [10, 20, 30] witnessReplies [0]).2 ⟨0, 1, 2⟩ rfl
     (by decide) (by decide) (by decide)⟩

/-- The algebraic core of Claim C5: removing the reader layer from the
reconstructed re-encryption of a NewWrite ciphertext yields exactly the
randomness mask r•X, so every chunk decodes. -/
theorem decodeKey_newWrite_roundtrip {P K : Type} [AddCommGroup P]
    (G : P) (x xc r : ℤ) (embed : K → P) (data : P → Option K)
    (hdata : ∀ k, data (embed k) = some k) (chunks : List K) :
    decodeKey (x • G) ((newWrite G (x • G) r embed chunks).2)
      (reencryptXhatEnc x ((newWrite G (x • G) r embed chunks).1) (xc • G))
      xc data
      = chunks.map some := by
  unfold decodeKey newWrite reencryptXhatEnc
  simp only [List.map_map]
  have hmask : x • (r • G + xc • G) - xc • x • G = r • x • G := by
    rw [smul_add, smul_smul, smul_smul, smul_smul, smul_smul]
    rw [mul_comm xc x, mul_comm x r]
    abel
  have hpt : ∀ k : K, (fun C => data (C - (x • (r • G + xc • G) - xc • x • G)))
      ((fun k => r • x • G + embed k) k) = some k := by
    intro k
    simp only [hmask]
    rw [add_sub_cancel_left]
    exact hdata k
  calc (chunks.map ((fun C => data (C - (x • (r • G + xc • G) - xc • x • G)))
        ∘ (fun k => r • x • G + embed k)))
      = chunks.map some := List.map_congr_left (fun k _ => hpt k)

/-- Claim C5: for a matched write/read pair — the write encrypting the
symmetric-key chunks to the LTS key X = x•G via NewWrite, the read naming
reader key Xc = xc•G — DecryptKey succeeds, returning exactly
(X, Cs of the write, XhatEnc reconstructed by the re-encryption protocol),
and DecodeKey with the reader private key xc recovers every original chunk. -/
theorem decryptKey_roundtrip_spec {P S I K : Type} [AddCommGroup P]
    [DecidableEq P]
    (st : storage1 P S I) (env : DecryptEnv P) (G : P) (x xc r : ℤ)
    (embed : K → P) (data : P → Option K) (chunks : List K)
    (read : Read P) (write : Write P) (shared : SharedSecret P S)
    (roster : List I) (rep : CreateLTSReply P) (pp : pubPoly P)
    (hdata : ∀ k, data (embed k) = some k)
    (hr : env.readDecode = .ok read)
    (hw : env.writeDecode = .ok write)
    (hma : read.Write = env.writeProofKey)
    (hro : st.Rosters write.LTSID = some roster)
    (hrep : st.Replies write.LTSID = some rep)
    (hsh : st.Shared write.LTSID = some shared)
    (hpp : st.Polys write.LTSID = some pp)
    (hrv : env.readVerify = none) (hwv : env.writeVerify = none)
    (hcp : env.createProtoErr = none) (hve : env.vdataEncodeErr = none)
    (hse : env.startErr = none) (hok : env.reencrypted = true)
    (hX : shared.X = x • G)
    (hXc : read.Xc = xc • G)
    (hU : write.U = (newWrite G shared.X r embed chunks).1)
    (hCs : write.Cs = (newWrite G shared.X r embed chunks).2)
    (hrec : env.recover (decryptThreshold roster.length) roster.length
      = .ok (reencryptXhatEnc x write.U read.Xc)) :
    decryptKey st env
      = (true, .ok ⟨write.Cs, reencryptXhatEnc x write.U read.Xc, shared.X⟩)
    ∧ decodeKey shared.X write.Cs (reencryptXhatEnc x write.U read.Xc) xc data
      = chunks.map some := by
  constructor
  · unfold decryptKey
    rw [hr, hw]
    simp [hma, hro, hrep, hrv, hwv, hcp, hve, hsh, hpp, hse, hok, hrec]
  · rw [hX] at hU hCs
    rw [hU, hCs, hX, hXc]
    exact decodeKey_newWrite_roundtrip G x xc r embed data hdata chunks

/-- Symmetric-key chunks for the C5 witness. -/
def c5chunks : List ℤ := [11]

/-- LTS shared secret for the C5 witness: X = 2•1 over the integers. -/
def c5shared : SharedSecret ℤ ℤ := ⟨0, 0, (2 : ℤ) • (1 : ℤ), []⟩

/-- Write instance for the C5 witness, built by newWrite with r = 5. -/
def c5write : Write ℤ :=
  ⟨[0], (newWrite (1 : ℤ) ((2 : ℤ) • (1 : ℤ)) 5 id c5chunks).1,
   (newWrite (1 : ℤ) ((2 : ℤ) • (1 : ℤ)) 5 id c5chunks).2⟩

/-- Read instance for the C5 witness: reader key Xc = 3•1. -/
def c5read : Read ℤ := ⟨[4], (3 : ℤ) • (1 : ℤ)⟩

/-- Storage for the C5 witness with the LTS record under key [0]. -/
def c5store : storage1 ℤ ℤ ℤ :=
  ⟨fun k => if k = [0] then some c5shared else none,
   fun k => if k = [0] then some ⟨1, []⟩ else none,
   fun k => if k = [0] then some [1, 2, 3] else none,
   fun k => if k = [0] then some ⟨[1], [2], (2 : ℤ) • (1 : ℤ)⟩ else none,
   fun _ => none,
   fun _ => none⟩

/-- Oracle environment for the C5 witness: every verification succeeds and
the protocol reconstructs the re-encryption toward the reader key. -/
def c5env : DecryptEnv ℤ :=
  ⟨.ok c5read, .ok c5write, [4], none, none, none, none, none, true,
   fun _ _ => .ok (reencryptXhatEnc 2 c5write.U c5read.Xc)⟩

/-- Witness for C5: DecryptKey succeeds on the matched pair and DecodeKey
with the reader private key 3 recovers the original chunk list [11]. -/
theorem decryptKey_roundtrip_spec_witness :
    c5env.readDecode = .ok c5read
    ∧ c5env.writeDecode = .ok c5write
    ∧ c5read.Write = c5env.writeProofKey
    ∧ (decryptKey c5store c5env
        = (true,
           .ok ⟨c5write.Cs, reencryptXhatEnc 2 c5write.U c5read.Xc,
                c5shared.X⟩)
       ∧ decodeKey c5shared.X c5write.Cs
           (reencryptXhatEnc 2 c5write.U c5read.Xc) 3 some
          = c5chunks.map some) :=
  ⟨rfl, rfl, rfl,
   decryptKey_roundtrip_spec c5store c5env 1 2 3 5 id some c5chunks c5read
     c5write c5shared [1, 2, 3] ⟨[1], [2], (2 : ℤ) • (1 : ℤ)⟩ ⟨1, []⟩
     (fun _ => rfl) rfl rfl rfl rfl rfl rfl rfl rfl rfl rfl rfl rfl rfl
     rfl rfl rfl rfl rfl⟩
